import Mathlib

/-!
Shallow embedding of `src/backend/app.py` (personal-finance backend):
data model (Loan, Payment, Transaction), serialization (`to_dict`), and
the six HTTP handlers (`get_user_data`, `save_loan`, `delete_loan`,
`add_payment`, `save_transaction`, `delete_transaction`).

The database session is modelled as an explicit `DB` state (lists of
rows); each handler is a pure function from request data and a `DB` to
an optional `(status × body) × DB`.  `none` models an uncaught Python
exception (surfaced as a 500-class error, with the session rolled back,
so the store is unchanged).  JSON bodies are modelled by the `JVal`
type; JSON numbers are modelled as `Rat` (the handlers do no arithmetic
on them, so this is faithful).  Client payloads are modelled as records
of `Option` fields: `none` is an absent key, mirroring Python's
`data.get(k)` returning `None`.
-/

/-! ### Dates: CPython `strptime('%Y-%m-%d')` and `date.isoformat()` -/

/-- A calendar date as produced by `datetime.date`. -/
structure Date where
  year : Nat
  month : Nat
  day : Nat
deriving DecidableEq, Repr

/-- The decimal digit character for `n % 10` (as in CPython's `%04d`/`%02d`
formatting used by `date.isoformat`). -/
def digitChar (n : Nat) : Char := Char.ofNat (48 + n % 10)

/-- Numeric value of a digit character. -/
def digitVal (c : Char) : Nat := c.toNat - 48

/-- Value of a most-significant-first digit string. -/
def digitsToNat (cs : List Char) : Nat := cs.foldl (fun a c => 10 * a + digitVal c) 0

/-- CPython `_strptime` field match: a non-empty all-digit run of length
between `lo` and `hi` (`%Y` is exactly 4 digits, `%m`/`%d` are 1-2). -/
def parseNatField (lo hi : Nat) (cs : List Char) : Option Nat :=
  if lo ≤ cs.length ∧ cs.length ≤ hi ∧ 0 < cs.length ∧ cs.all Char.isDigit then
    some (digitsToNat cs)
  else none

/-- Gregorian leap year, as in `datetime`. -/
def isLeap (y : Nat) : Bool := y % 4 == 0 && (y % 100 != 0 || y % 400 == 0)

/-- Days in a month, as validated by `datetime.date`. -/
def daysInMonth (y m : Nat) : Nat :=
  if m == 2 then (if isLeap y then 29 else 28)
  else if m == 4 || m == 6 || m == 9 || m == 11 then 30
  else 31

/-- Split a character list at every occurrence of `sep`, like Python's
`str.split(sep)` (so the result is always non-empty, and an empty input
yields `[[]]`). -/
def splitOnChar (sep : Char) : List Char → List (List Char)
  | [] => [[]]
  | c :: cs =>
    if c == sep then [] :: splitOnChar sep cs
    else
      match splitOnChar sep cs with
      | [] => [[c]]
      | h :: t => (c :: h) :: t

/-- `datetime.strptime(s, '%Y-%m-%d').date()`: exactly-4-digit year,
1-2 digit month and day, validated ranges (`MINYEAR = 1`; day checked
against the month length).  Returns `none` where CPython raises. -/
def strptimeYMD (s : String) : Option Date :=
  match splitOnChar '-' s.data with
  | [ys, ms, ds] =>
    match parseNatField 4 4 ys, parseNatField 1 2 ms, parseNatField 1 2 ds with
    | some y, some m, some d =>
      if 1 ≤ y ∧ 1 ≤ m ∧ m ≤ 12 ∧ 1 ≤ d ∧ d ≤ daysInMonth y m then
        some ⟨y, m, d⟩
      else none
    | _, _, _ => none
  | _ => none

/-- `s.split('T')[0]`: the part of `s` before the first `'T'`. -/
def takeBeforeT (s : String) : String := ⟨s.data.takeWhile (fun c => c != 'T')⟩

/-- Zero-padded 4-digit year, as in `date.isoformat` (`datetime` years
are at most 9999, which the parser above also enforces). -/
def pad4 (n : Nat) : List Char :=
  [digitChar (n / 1000), digitChar (n / 100), digitChar (n / 10), digitChar n]

/-- Zero-padded 2-digit month/day field of `date.isoformat`. -/
def pad2 (n : Nat) : List Char := [digitChar (n / 10), digitChar n]

/-- `date.isoformat()`: `YYYY-MM-DD`. -/
def dateIso (d : Date) : String :=
  ⟨pad4 d.year ++ '-' :: (pad2 d.month ++ '-' :: pad2 d.day)⟩

/-! ### JSON values (the wire representation built by `jsonify`) -/

/-- A JSON value as produced by `jsonify` on the Python dicts. -/
inductive JVal where
  | null : JVal
  | str : String → JVal
  | num : Rat → JVal
  | bool : Bool → JVal
  | arr : List JVal → JVal
  | obj : List (String × JVal) → JVal

/-! ### Stored rows (the three tables) -/

/-- A row of the `loans` table.  Columns that are nullable in the schema
(or are only ever written from possibly-absent payload keys) are
`Option`s; `id` is the primary key. -/
structure Loan where
  id : String
  user_id : Option String
  name : Option String
  lender : Option String
  principal : Option Rat
  interest_rate : Option Rat
  start_date : Option Date
  emi_amount : Option Rat
  tenure_months : Option Int
  initial_paid_months : Option Int
  due_date_day : Option Int
  type : Option String
  status : Option String
  is_foreclosed : Option Bool
deriving DecidableEq, Repr

/-- A row of the `payments` table. -/
structure Payment where
  id : String
  loan_id : Option String
  date : Option Date
  amount : Option Rat
  note : Option String
deriving DecidableEq, Repr

/-- A row of the `transactions` table. -/
structure Transaction where
  id : String
  user_id : Option String
  date : Option Date
  amount : Option Rat
  type : Option String
  category : Option String
  description : Option String
deriving DecidableEq, Repr

/-- The database session/state: the three tables, in row order. -/
structure DB where
  loans : List Loan
  payments : List Payment
  transactions : List Transaction
deriving DecidableEq, Repr

/-- Primary-key uniqueness, which the underlying store enforces on each
table. -/
def DB.wf (db : DB) : Prop :=
  (db.loans.map Loan.id).Nodup ∧ (db.payments.map Payment.id).Nodup ∧
    (db.transactions.map Transaction.id).Nodup

instance (db : DB) : Decidable db.wf := by unfold DB.wf; infer_instance

/-! ### Serialization (`to_dict`) -/

/-- Serialize an optional string (`None` → JSON null). -/
def jStr : Option String → JVal
  | none => .null
  | some s => .str s

/-- Serialize an optional number. -/
def jNum : Option Rat → JVal
  | none => .null
  | some q => .num q

/-- Serialize an optional integer column. -/
def jInt : Option Int → JVal
  | none => .null
  | some n => .num n

/-- Serialize an optional boolean. -/
def jBool : Option Bool → JVal
  | none => .null
  | some b => .bool b

/-- `self.date.isoformat() if self.date else None`. -/
def jDate : Option Date → JVal
  | none => .null
  | some d => .str (dateIso d)

/-- `Payment.to_dict`. -/
def Payment.to_dict (p : Payment) : JVal :=
  .obj [("id", .str p.id), ("date", jDate p.date), ("amount", jNum p.amount),
        ("note", jStr p.note)]

/-- The `Loan.payments` relationship: the payments whose foreign key is
this loan's id, in table order. -/
def loanPayments (db : DB) (l : Loan) : List Payment :=
  db.payments.filter (fun pm => pm.loan_id == some l.id)

/-- `Loan.to_dict`; `pms` is the loan's `payments` relationship (pass
`loanPayments db l`).  Note `user_id` is not serialized. -/
def Loan.to_dict (l : Loan) (pms : List Payment) : JVal :=
  .obj [("id", .str l.id), ("name", jStr l.name), ("lender", jStr l.lender),
        ("principal", jNum l.principal), ("interestRate", jNum l.interest_rate),
        ("startDate", jDate l.start_date), ("emiAmount", jNum l.emi_amount),
        ("tenureMonths", jInt l.tenure_months),
        ("initialPaidMonths", jInt l.initial_paid_months),
        ("dueDateDay", jInt l.due_date_day), ("type", jStr l.type),
        ("status", jStr l.status), ("isForeclosed", jBool l.is_foreclosed),
        ("payments", .arr (pms.map Payment.to_dict))]

/-- `Transaction.to_dict`; `user_id` is not serialized. -/
def Transaction.to_dict (t : Transaction) : JVal :=
  .obj [("id", .str t.id), ("date", jDate t.date), ("amount", jNum t.amount),
        ("type", jStr t.type), ("category", jStr t.category),
        ("description", jStr t.description)]

/-! ### Request payloads

Each incoming JSON body is modelled as a record of `Option` fields
(`none` = key absent), except `id`: the claims are about client-supplied
ids, so the server-side `uuid4` default for a missing id is not
modelled. -/

/-- Body of `POST /api/loans`.  The embedded `payments` value is kept
abstract (`List JVal`): the handler only tests the key's presence. -/
structure LoanPayload where
  id : String
  name : Option String
  lender : Option String
  principal : Option Rat
  interestRate : Option Rat
  startDate : Option String
  emiAmount : Option Rat
  tenureMonths : Option Int
  initialPaidMonths : Option Int
  dueDateDay : Option Int
  type : Option String
  status : Option String
  isForeclosed : Option Bool
  payments : Option (List JVal)

/-- Body of `POST /api/payments`. -/
structure PaymentPayload where
  id : String
  loanId : Option String
  date : Option String
  amount : Option Rat
  note : Option String
deriving DecidableEq, Repr

/-- Body of `POST /api/transactions`. -/
structure TxPayload where
  id : String
  date : Option String
  amount : Option Rat
  type : Option String
  category : Option String
  description : Option String
deriving DecidableEq, Repr

/-! ### Handlers -/

/-- An HTTP response: status code and JSON body. -/
abbrev Resp := Nat × JVal

/-- Replace the first element satisfying `p` by `f` of it (the ORM
updates the single row returned by `query.get`). -/
def updateFirst (p : α → Bool) (f : α → α) : List α → List α
  | [] => []
  | x :: xs => if p x then f x :: xs else x :: updateFirst p f xs

/-- `GET /api/sync` (`get_user_data`).  `userId` is the optional query
parameter; `if not user_id` in Python also rejects the empty string. -/
def get_user_data (userId : Option String) (db : DB) : Resp × DB :=
  match userId with
  | none => ((400, .obj [("error", .str "User ID required")]), db)
  | some uid =>
    if uid == "" then ((400, .obj [("error", .str "User ID required")]), db)
    else
      ((200, .obj
        [("loans", .arr ((db.loans.filter (fun l => l.user_id == some uid)).map
            (fun l => l.to_dict (loanPayments db l)))),
         ("transactions", .arr ((db.transactions.filter
            (fun t => t.user_id == some uid)).map Transaction.to_dict))]), db)

/-- Lines 128-139 of `save_loan`: overwrite every mutable field of `l`
from the payload (`data.get(k)`, with the literal defaults for
`initialPaidMonths`, `status`, `isForeclosed`); `d` is the parsed
`startDate`.  `id` and `user_id` are not assigned. -/
def applyLoanPayload (l : Loan) (p : LoanPayload) (d : Date) : Loan :=
  { l with
    name := p.name, lender := p.lender, principal := p.principal,
    interest_rate := p.interestRate, start_date := some d,
    emi_amount := p.emiAmount, tenure_months := p.tenureMonths,
    initial_paid_months := some (p.initialPaidMonths.getD 0),
    due_date_day := p.dueDateDay, type := p.type,
    status := some (p.status.getD "active"),
    is_foreclosed := some (p.isForeclosed.getD false) }

/-- `Loan(id=data.get('id'), user_id=user_id)`: a fresh ORM object; all
other attributes are overwritten by `applyLoanPayload` before commit. -/
def newLoan (id : String) (uid : Option String) : Loan :=
  { id := id, user_id := uid, name := none, lender := none, principal := none,
    interest_rate := none, start_date := none, emi_amount := none,
    tenure_months := none, initial_paid_months := none, due_date_day := none,
    type := none, status := none, is_foreclosed := none }

/-- `POST /api/loans` (`save_loan`).  `none` models the uncaught
exception when `startDate` is absent (`None.split` raises) or does not
parse (`strptime` raises): the commit never happens.  The `payments`
key, when present, is explicitly ignored (`pass`). -/
def save_loan (userId : Option String) (p : LoanPayload) (db : DB) :
    Option (Resp × DB) :=
  match p.startDate with
  | none => none
  | some sd =>
    match strptimeYMD (takeBeforeT sd) with
    | none => none
    | some d =>
      match db.loans.find? (fun l => l.id == p.id) with
      | none =>
        let u := applyLoanPayload (newLoan p.id userId) p d
        let db' : DB := { db with loans := db.loans ++ [u] }
        some ((200, u.to_dict (loanPayments db' u)), db')
      | some l0 =>
        let u := applyLoanPayload l0 p d
        let db' : DB :=
          { db with loans := updateFirst (fun l => l.id == p.id) (fun _ => u) db.loans }
        some ((200, u.to_dict (loanPayments db' u)), db')

/-- `DELETE /api/loans/<loan_id>` (`delete_loan`).  Deleting the loan
cascades to its `payments` relationship (`cascade="all, delete-orphan"`). -/
def delete_loan (loanId : String) (db : DB) : Resp × DB :=
  match db.loans.find? (fun l => l.id == loanId) with
  | some _ =>
    ((200, .obj [("message", .str "Deleted successfully")]),
     { db with
       loans := db.loans.eraseP (fun l => l.id == loanId),
       payments := db.payments.filter (fun pm => !(pm.loan_id == some loanId)) })
  | none => ((404, .obj [("error", .str "Loan not found")]), db)

/-- `POST /api/payments` (`add_payment`).  `none` models the exception
when `date` is absent or unparsable.  The loan looked up on line 178 is
unused ("logic to check balance could go here"); the only store change
is the inserted Payment row. -/
def add_payment (p : PaymentPayload) (db : DB) : Option (Resp × DB) :=
  match p.date with
  | none => none
  | some ds =>
    match strptimeYMD ds with
    | none => none
    | some d =>
      let pm : Payment :=
        { id := p.id, loan_id := p.loanId, date := some d, amount := p.amount,
          note := p.note }
      some ((200, pm.to_dict), { db with payments := db.payments ++ [pm] })

/-- `POST /api/transactions` (`save_transaction`).  `db.session.merge`
is an upsert by primary key: replace the existing row wholesale if one
exists, insert otherwise.  `none` models the `strptime` exception. -/
def save_transaction (userId : Option String) (p : TxPayload) (db : DB) :
    Option (Resp × DB) :=
  match p.date with
  | none => none
  | some ds =>
    match strptimeYMD ds with
    | none => none
    | some d =>
      let tx : Transaction :=
        { id := p.id, user_id := userId, date := some d, amount := p.amount,
          type := p.type, category := p.category, description := p.description }
      let txs :=
        match db.transactions.find? (fun t => t.id == p.id) with
        | some _ => updateFirst (fun t => t.id == p.id) (fun _ => tx) db.transactions
        | none => db.transactions ++ [tx]
      some ((200, tx.to_dict), { db with transactions := txs })

/-- `DELETE /api/transactions/<tx_id>` (`delete_transaction`). -/
def delete_transaction (txId : String) (db : DB) : Resp × DB :=
  match db.transactions.find? (fun t => t.id == txId) with
  | some _ =>
    ((200, .obj [("message", .str "Deleted")]),
     { db with transactions := db.transactions.eraseP (fun t => t.id == txId) })
  | none => ((404, .obj [("error", .str "Not found")]), db)

/-! ### List helper lemmas -/

theorem find?_decomp {α} {p : α → Bool} {l : List α} {a : α}
    (h : l.find? p = some a) :
    ∃ pre post, l = pre ++ a :: post ∧ (∀ x ∈ pre, p x = false) ∧ p a = true := by
  induction l with
  | nil => simp at h
  | cons x xs ih =>
    cases hx : p x with
    | true =>
      rw [List.find?_cons_of_pos _ hx] at h
      cases h
      exact ⟨[], xs, rfl, by simp, hx⟩
    | false =>
      rw [List.find?_cons_of_neg _ (by simp [hx])] at h
      obtain ⟨pre, post, h1, h2, h3⟩ := ih h
      refine ⟨x :: pre, post, by simp [h1], ?_, h3⟩
      intro y hy
      rcases List.mem_cons.mp hy with rfl | hy2
      · exact hx
      · exact h2 y hy2

theorem updateFirst_eq {α} (p : α → Bool) (f : α → α) (pre post : List α) (a : α)
    (hpre : ∀ x ∈ pre, p x = false) (ha : p a = true) :
    updateFirst p f (pre ++ a :: post) = pre ++ f a :: post := by
  induction pre with
  | nil => simp [updateFirst, ha]
  | cons x xs ih =>
    have hx := hpre x (by simp)
    simp only [List.cons_append, updateFirst, hx]
    simp [ih (fun y hy => hpre y (by simp [hy]))]

theorem updateFirst_no_match {α} (p : α → Bool) (f : α → α) (l1 l2 : List α)
    (h : ∀ x ∈ l1, p x = false) :
    updateFirst p f (l1 ++ l2) = l1 ++ updateFirst p f l2 := by
  induction l1 with
  | nil => simp
  | cons x xs ih =>
    have hx := h x (by simp)
    simp only [List.cons_append, updateFirst, hx]
    simp [ih (fun y hy => h y (by simp [hy]))]

theorem eraseP_decomp {α} (p : α → Bool) (pre post : List α) (a : α)
    (hpre : ∀ x ∈ pre, p x = false) (ha : p a = true) :
    (pre ++ a :: post).eraseP p = pre ++ post := by
  induction pre with
  | nil => simp [List.eraseP_cons, ha]
  | cons x xs ih =>
    have hx := hpre x (by simp)
    simp only [List.cons_append, List.eraseP_cons, hx]
    simp [ih (fun y hy => hpre y (by simp [hy]))]

theorem filter_singleton_of_unique {α} {p : α → Bool} {pre post : List α} {a : α}
    (hpre : ∀ x ∈ pre, p x = false) (hpost : ∀ x ∈ post, p x = false)
    (ha : p a = true) :
    (pre ++ a :: post).filter p = [a] := by
  rw [List.filter_append]
  rw [List.filter_eq_nil_iff.mpr (by intro x hx; simp [hpre x hx])]
  rw [List.nil_append, List.filter_cons_of_pos ha]
  rw [List.filter_eq_nil_iff.mpr (by intro x hx; simp [hpost x hx])]

theorem nodup_middle_ne {α β} {f : α → β} {pre post : List α} {a : α}
    (h : ((pre ++ a :: post).map f).Nodup) :
    ∀ x ∈ post, f x ≠ f a := by
  rw [List.map_append, List.nodup_append] at h
  obtain ⟨-, h2, -⟩ := h
  rw [List.map_cons, List.nodup_cons] at h2
  intro x hx he
  exact h2.1 (he ▸ List.mem_map_of_mem f hx)

/-! ### Concrete fixtures (used by the witnesses) -/

/-- A sample stored loan owned by "alice". -/
def loanA : Loan :=
  { id := "L1", user_id := some "alice", name := some "car loan",
    lender := some "bank", principal := some 5000, interest_rate := some 7,
    start_date := some ⟨2024, 3, 15⟩, emi_amount := some 250,
    tenure_months := some 24, initial_paid_months := some 0,
    due_date_day := some 5, type := some "auto", status := some "active",
    is_foreclosed := some false }

/-- A payment on `loanA`. -/
def payA1 : Payment :=
  { id := "P1", loan_id := some "L1", date := some ⟨2024, 4, 5⟩,
    amount := some 250, note := none }

/-- Another payment on `loanA`. -/
def payA2 : Payment :=
  { id := "P2", loan_id := some "L1", date := some ⟨2024, 5, 5⟩,
    amount := some 250, note := some "extra" }

/-- A sample transaction owned by "alice". -/
def txA : Transaction :=
  { id := "T1", user_id := some "alice", date := some ⟨2024, 4, 1⟩,
    amount := some 40, type := some "expense", category := some "food",
    description := none }

/-- A sample store: one loan with two payments, one transaction. -/
def dbSample : DB := { loans := [loanA], payments := [payA1, payA2], transactions := [txA] }

/-! ### C6 -/

/-- C6: a sync request with no userId parameter returns a 400 error
response whose body is only the error message (no loans or transactions
payload), the store is unchanged, and the response does not depend on
the stored data (none of it is read back). -/
theorem sync_missing_userId_rejected (db : DB) :
    get_user_data none db = ((400, .obj [("error", .str "User ID required")]), db) ∧
    ∀ db2 : DB, (get_user_data none db2).1 = (get_user_data none db).1 :=
  ⟨rfl, fun _ => rfl⟩

/-! ### C9 -/

/-- C9: a successful `POST /api/payments` changes no Loan (so `status`,
`is_foreclosed` and every other loan field keep their prior values,
whatever the cumulative payments are) and no Transaction; the only
store change is the appended Payment row, which is also the response.
(When the handler raises instead — absent/unparsable date — it returns
no state at all, so no Loan is modified in that case either.) -/
theorem add_payment_loan_frame (p : PaymentPayload) (db : DB) (r : Resp) (db' : DB)
    (h : add_payment p db = some (r, db')) :
    db'.loans = db.loans ∧ db'.transactions = db.transactions ∧
    ∃ pm, db'.payments = db.payments ++ [pm] ∧ pm.id = p.id ∧
      pm.loan_id = p.loanId ∧ pm.amount = p.amount ∧ pm.note = p.note ∧
      (∃ ds d, p.date = some ds ∧ strptimeYMD ds = some d ∧ pm.date = some d) ∧
      r = (200, pm.to_dict) := by
  cases hd : p.date with
  | none => simp [add_payment, hd] at h
  | some ds =>
    cases hs : strptimeYMD ds with
    | none => simp [add_payment, hd, hs] at h
    | some d =>
      simp only [add_payment, hd, hs, Option.some.injEq, Prod.mk.injEq] at h
      obtain ⟨hr, hdb⟩ := h
      subst hdb
      refine ⟨rfl, rfl, ⟨_, rfl, rfl, rfl, rfl, rfl, ⟨ds, d, rfl, hs, rfl⟩, hr.symm⟩⟩

/-- The payload posted by the C9 witness. -/
def ppW : PaymentPayload :=
  { id := "P3", loanId := some "L1", date := some "2024-06-05",
    amount := some 250, note := none }

/-- The row `ppW` inserts. -/
def payW : Payment :=
  { id := "P3", loan_id := some "L1", date := some ⟨2024, 6, 5⟩,
    amount := some 250, note := none }

/-- The store after the C9 witness call. -/
def dbAfterPay : DB := { dbSample with payments := dbSample.payments ++ [payW] }

/-- C9 witness: the frame property at a concrete call. -/
theorem add_payment_loan_frame_witness :
    add_payment ppW dbSample = some ((200, payW.to_dict), dbAfterPay) ∧
    (dbAfterPay.loans = dbSample.loans ∧
     dbAfterPay.transactions = dbSample.transactions ∧
     ∃ pm, dbAfterPay.payments = dbSample.payments ++ [pm] ∧ pm.id = ppW.id ∧
       pm.loan_id = ppW.loanId ∧ pm.amount = ppW.amount ∧ pm.note = ppW.note ∧
       (∃ ds d, ppW.date = some ds ∧ strptimeYMD ds = some d ∧ pm.date = some d) ∧
       ((200, payW.to_dict) : Resp) = (200, pm.to_dict)) :=
  ⟨by rfl, add_payment_loan_frame ppW dbSample (200, payW.to_dict) dbAfterPay (by rfl)⟩

/-! ### C5 -/

/-- C5: deleting a nonexistent Loan or Transaction id returns a 404
not-found error (not a success confirmation) and leaves the store
unchanged; deleting an existing id returns the success message and
removes the entity. -/
theorem delete_missing_not_found (loanId txId : String) (db : DB) :
    ((∀ l ∈ db.loans, l.id ≠ loanId) →
      delete_loan loanId db = ((404, .obj [("error", .str "Loan not found")]), db)) ∧
    ((∃ l ∈ db.loans, l.id = loanId) →
      ∃ db', delete_loan loanId db =
          ((200, .obj [("message", .str "Deleted successfully")]), db') ∧
        (db.wf → ∀ l ∈ db'.loans, l.id ≠ loanId)) ∧
    ((∀ t ∈ db.transactions, t.id ≠ txId) →
      delete_transaction txId db = ((404, .obj [("error", .str "Not found")]), db)) ∧
    ((∃ t ∈ db.transactions, t.id = txId) →
      ∃ db', delete_transaction txId db = ((200, .obj [("message", .str "Deleted")]), db') ∧
        (db.wf → ∀ t ∈ db'.transactions, t.id ≠ txId)) := by
  refine ⟨?_, ?_, ?_, ?_⟩
  · intro hall
    have hf : db.loans.find? (fun l => l.id == loanId) = none :=
      List.find?_eq_none.mpr (by intro x hx; simpa using hall x hx)
    simp [delete_loan, hf]
  · rintro ⟨l, hl, hid⟩
    cases hf : db.loans.find? (fun l => l.id == loanId) with
    | none =>
      exact absurd (by simpa using List.find?_eq_none.mp hf l hl) (by simp [hid])
    | some l0 =>
      refine ⟨{ db with loans := db.loans.eraseP (fun l => l.id == loanId),
                        payments := db.payments.filter
                          (fun pm => !(pm.loan_id == some loanId)) },
              by simp [delete_loan, hf], ?_⟩
      intro hwf l' hl' he
      obtain ⟨pre, post, hdec, hpre, hpa⟩ := find?_decomp hf
      have herase : db.loans.eraseP (fun l => l.id == loanId) = pre ++ post := by
        rw [hdec]; exact eraseP_decomp _ _ _ _ hpre hpa
      rw [herase] at hl'
      rcases List.mem_append.mp hl' with hmem | hmem
      · have := hpre l' hmem; simp [he] at this
      · have hne := nodup_middle_ne (f := Loan.id) (hdec ▸ hwf.1) l' hmem
        have : l0.id = loanId := by simpa using hpa
        exact hne (by rw [he, this])
  · intro hall
    have hf : db.transactions.find? (fun t => t.id == txId) = none :=
      List.find?_eq_none.mpr (by intro x hx; simpa using hall x hx)
    simp [delete_transaction, hf]
  · rintro ⟨t, ht, hid⟩
    cases hf : db.transactions.find? (fun t => t.id == txId) with
    | none =>
      exact absurd (by simpa using List.find?_eq_none.mp hf t ht) (by simp [hid])
    | some t0 =>
      refine ⟨{ db with transactions := db.transactions.eraseP (fun t => t.id == txId) },
              by simp [delete_transaction, hf], ?_⟩
      intro hwf t' ht' he
      obtain ⟨pre, post, hdec, hpre, hpa⟩ := find?_decomp hf
      have herase : db.transactions.eraseP (fun t => t.id == txId) = pre ++ post := by
        rw [hdec]; exact eraseP_decomp _ _ _ _ hpre hpa
      rw [herase] at ht'
      rcases List.mem_append.mp ht' with hmem | hmem
      · have := hpre t' hmem; simp [he] at this
      · have hne := nodup_middle_ne (f := Transaction.id) (hdec ▸ hwf.2.2) t' hmem
        have : t0.id = txId := by simpa using hpa
        exact hne (by rw [he, this])

/-- C5 witness: both 404 cases and both success cases on the sample
store. -/
theorem delete_missing_not_found_witness :
    (delete_loan "NOPE" dbSample = ((404, .obj [("error", .str "Loan not found")]), dbSample)) ∧
    (∃ db', delete_loan "L1" dbSample =
        ((200, .obj [("message", .str "Deleted successfully")]), db') ∧
      (dbSample.wf → ∀ l ∈ db'.loans, l.id ≠ "L1")) ∧
    (delete_transaction "XX" dbSample = ((404, .obj [("error", .str "Not found")]), dbSample)) ∧
    (∃ db', delete_transaction "T1" dbSample = ((200, .obj [("message", .str "Deleted")]), db') ∧
      (dbSample.wf → ∀ t ∈ db'.transactions, t.id ≠ "T1")) :=
  ⟨(delete_missing_not_found "NOPE" "XX" dbSample).1 (by decide),
   (delete_missing_not_found "L1" "T1" dbSample).2.1 (by decide),
   (delete_missing_not_found "NOPE" "XX" dbSample).2.2.1 (by decide),
   (delete_missing_not_found "L1" "T1" dbSample).2.2.2 (by decide)⟩

theorem find?_append_none {α} {p : α → Bool} {l1 : List α} (l2 : List α)
    (h : l1.find? p = none) : (l1 ++ l2).find? p = l2.find? p := by
  induction l1 with
  | nil => simp
  | cons x xs ih =>
    have hx : p x = false := by
      have := List.find?_eq_none.mp h x (by simp)
      simpa using this
    have hxs : xs.find? p = none := by
      apply List.find?_eq_none.mpr
      intro y hy
      exact List.find?_eq_none.mp h y (by simp [hy])
    rw [List.cons_append, List.find?_cons_of_neg _ (by simp [hx])]
    exact ih hxs

theorem find?_prepend_no_match {α} {p : α → Bool} {pre post : List α} {a : α}
    (hpre : ∀ x ∈ pre, p x = false) (ha : p a = true) :
    (pre ++ a :: post).find? p = some a := by
  induction pre with
  | nil => simpa [List.find?_cons] using List.find?_cons_of_pos post ha
  | cons x xs ih =>
    have hx := hpre x (by simp)
    rw [List.cons_append, List.find?_cons_of_neg _ (by simp [hx])]
    exact ih (fun y hy => hpre y (by simp [hy]))

/-! ### C2 -/

/-- C2: a successful `POST /api/transactions` leaves exactly one
Transaction row with the payload's id — an insert if it was absent, a
full replacement if present, never a second row — carrying the payload
values, with `user_id` set to the requesting userId on every call (so
re-upserting an existing id under a different userId reassigns
ownership, whatever the prior owner was); the other tables are
untouched and the row is the response. -/
theorem transaction_upsert_replace (uid : Option String) (p : TxPayload) (db : DB)
    (r : Resp) (db' : DB) (hwf : db.wf)
    (h : save_transaction uid p db = some (r, db')) :
    db'.loans = db.loans ∧ db'.payments = db.payments ∧
    ∃ tx, db'.transactions.filter (fun t => t.id == p.id) = [tx] ∧
      tx.id = p.id ∧ tx.user_id = uid ∧ tx.amount = p.amount ∧ tx.type = p.type ∧
      tx.category = p.category ∧ tx.description = p.description ∧
      (∃ ds d, p.date = some ds ∧ strptimeYMD ds = some d ∧ tx.date = some d) ∧
      r = (200, tx.to_dict) := by
  cases hd : p.date with
  | none => simp [save_transaction, hd] at h
  | some ds =>
    cases hs : strptimeYMD ds with
    | none => simp [save_transaction, hd, hs] at h
    | some d =>
      cases hf : db.transactions.find? (fun t => t.id == p.id) with
      | none =>
        simp only [save_transaction, hd, hs, hf, Option.some.injEq, Prod.mk.injEq] at h
        obtain ⟨hr, hdb⟩ := h
        subst hdb
        refine ⟨rfl, rfl,
          ⟨⟨p.id, uid, some d, p.amount, p.type, p.category, p.description⟩,
           ?_, rfl, rfl, rfl, rfl, rfl, rfl, ⟨ds, d, rfl, hs, rfl⟩, hr.symm⟩⟩
        show (db.transactions ++
            [(⟨p.id, uid, some d, p.amount, p.type, p.category, p.description⟩ :
              Transaction)]).filter (fun t => t.id == p.id) =
          [⟨p.id, uid, some d, p.amount, p.type, p.category, p.description⟩]
        rw [List.filter_append,
          List.filter_eq_nil_iff.mpr (by
            intro x hx
            have := List.find?_eq_none.mp hf x hx
            simpa using this)]
        simp
      | some t0 =>
        simp only [save_transaction, hd, hs, hf, Option.some.injEq, Prod.mk.injEq] at h
        obtain ⟨hr, hdb⟩ := h
        subst hdb
        obtain ⟨pre, post, hdec, hpre, hpa⟩ := find?_decomp hf
        refine ⟨rfl, rfl,
          ⟨⟨p.id, uid, some d, p.amount, p.type, p.category, p.description⟩,
           ?_, rfl, rfl, rfl, rfl, rfl, rfl, ⟨ds, d, rfl, hs, rfl⟩, hr.symm⟩⟩
        show (updateFirst (fun t => t.id == p.id)
            (fun _ => (⟨p.id, uid, some d, p.amount, p.type, p.category,
              p.description⟩ : Transaction)) db.transactions).filter
            (fun t => t.id == p.id) =
          [⟨p.id, uid, some d, p.amount, p.type, p.category, p.description⟩]
        rw [hdec, updateFirst_eq _ _ _ _ _ hpre hpa]
        refine filter_singleton_of_unique hpre ?_ (by simp)
        intro x hx
        have hne := nodup_middle_ne (f := Transaction.id) (hdec ▸ hwf.2.2) x hx
        have ht0 : t0.id = p.id := by simpa using hpa
        simp [ht0 ▸ hne]

/-- The transaction payload the C2 witness re-upserts: same id as
`txA` (owned by "alice"), changed amount, posted as "bob". -/
def txpW : TxPayload :=
  { id := "T1", date := some "2024-04-02", amount := some 99,
    type := some "expense", category := none, description := none }

/-- The row the C2 witness call stores. -/
def txW : Transaction :=
  { id := "T1", user_id := some "bob", date := some ⟨2024, 4, 2⟩,
    amount := some 99, type := some "expense", category := none,
    description := none }

/-- The store after the C2 witness call: the one row replaced. -/
def dbTxAfter : DB := { dbSample with transactions := [txW] }

/-- C2 witness: re-upserting "alice"'s transaction as "bob" leaves one
row, with the new amount and the new owner. -/
theorem transaction_upsert_replace_witness :
    dbSample.wf ∧
    save_transaction (some "bob") txpW dbSample = some ((200, txW.to_dict), dbTxAfter) ∧
    (dbTxAfter.loans = dbSample.loans ∧ dbTxAfter.payments = dbSample.payments ∧
     ∃ tx, dbTxAfter.transactions.filter (fun t => t.id == txpW.id) = [tx] ∧
       tx.id = txpW.id ∧ tx.user_id = some "bob" ∧ tx.amount = txpW.amount ∧
       tx.type = txpW.type ∧ tx.category = txpW.category ∧
       tx.description = txpW.description ∧
       (∃ ds d, txpW.date = some ds ∧ strptimeYMD ds = some d ∧ tx.date = some d) ∧
       ((200, txW.to_dict) : Resp) = (200, tx.to_dict)) :=
  ⟨by decide, by rfl,
   transaction_upsert_replace (some "bob") txpW dbSample (200, txW.to_dict)
     dbTxAfter (by decide) (by rfl)⟩

/-! ### C10 -/

/-- C10: when a loan upsert targets an id that already exists, the
stored loan keeps its original `user_id` — the handler never assigns
`user_id` on the update path, so re-upserting under any (possibly
different) requesting userId does not reassign the loan. -/
theorem loan_owner_fixed_at_creation (uid : Option String) (p : LoanPayload)
    (db : DB) (r : Resp) (db' : DB) (l0 : Loan)
    (h : save_loan uid p db = some (r, db'))
    (hfind : db.loans.find? (fun l => l.id == p.id) = some l0) :
    ∃ pre post u, db.loans = pre ++ l0 :: post ∧ db'.loans = pre ++ u :: post ∧
      u.id = l0.id ∧ u.user_id = l0.user_id := by
  cases hsd : p.startDate with
  | none => simp [save_loan, hsd] at h
  | some sd =>
    cases hps : strptimeYMD (takeBeforeT sd) with
    | none => simp [save_loan, hsd, hps] at h
    | some d =>
      simp only [save_loan, hsd, hps, hfind, Option.some.injEq, Prod.mk.injEq] at h
      obtain ⟨hr, hdb⟩ := h
      subst hdb
      obtain ⟨pre, post, hdec, hpre, hpa⟩ := find?_decomp hfind
      refine ⟨pre, post, applyLoanPayload l0 p d, hdec, ?_, rfl, rfl⟩
      show updateFirst (fun l => l.id == p.id) _ db.loans = _
      rw [hdec, updateFirst_eq _ _ _ _ _ hpre hpa]

/-- The loan payload the C10 witness posts: targets existing id "L1"
as requesting user "mallory". -/
def lpHijack : LoanPayload :=
  { id := "L1", name := some "hijack", lender := none, principal := some 1,
    interestRate := none, startDate := some "2025-01-01", emiAmount := none,
    tenureMonths := none, initialPaidMonths := none, dueDateDay := none,
    type := none, status := none, isForeclosed := none, payments := none }

/-- The stored loan after the C10 witness call: fields overwritten,
owner still "alice". -/
def loanHijacked : Loan :=
  { id := "L1", user_id := some "alice", name := some "hijack",
    lender := none, principal := some 1, interest_rate := none,
    start_date := some ⟨2025, 1, 1⟩, emi_amount := none,
    tenure_months := none, initial_paid_months := some 0,
    due_date_day := none, type := none, status := some "active",
    is_foreclosed := some false }

/-- The store after the C10 witness call. -/
def dbHijack : DB := { dbSample with loans := [loanHijacked] }

/-- C10 witness: "mallory" re-upserts "alice"'s loan; the stored owner
is still "alice". -/
theorem loan_owner_fixed_at_creation_witness :
    save_loan (some "mallory") lpHijack dbSample =
      some ((200, loanHijacked.to_dict [payA1, payA2]), dbHijack) ∧
    (∃ pre post u, dbSample.loans = pre ++ loanA :: post ∧
      dbHijack.loans = pre ++ u :: post ∧
      u.id = loanA.id ∧ u.user_id = loanA.user_id) :=
  ⟨by rfl,
   loan_owner_fixed_at_creation (some "mallory") lpHijack dbSample
     (200, loanHijacked.to_dict [payA1, payA2]) dbHijack loanA (by rfl) (by rfl)⟩

/-! ### C1 -/

/-- Lines 128-139 of `save_loan`, stated field by field: every mutable
loan field is overwritten from the payload, a missing key becoming its
default (`none`, except the three literal defaults in the code). -/
def loanFieldsFromPayload (u : Loan) (p : LoanPayload) (d : Date) : Prop :=
  u.name = p.name ∧ u.lender = p.lender ∧ u.principal = p.principal ∧
  u.interest_rate = p.interestRate ∧ u.start_date = some d ∧
  u.emi_amount = p.emiAmount ∧ u.tenure_months = p.tenureMonths ∧
  u.initial_paid_months = some (p.initialPaidMonths.getD 0) ∧
  u.due_date_day = p.dueDateDay ∧ u.type = p.type ∧
  u.status = some (p.status.getD "active") ∧
  u.is_foreclosed = some (p.isForeclosed.getD false)

theorem save_loan_payments_key_irrelevant (uid : Option String) (p : LoanPayload)
    (pl : Option (List JVal)) (db : DB) :
    save_loan uid { p with payments := pl } db = save_loan uid p db := by
  cases p
  rfl

/-- C1: a successful loan upsert leaves Payments and Transactions
untouched and behaves the same whatever `payments` value the payload
carries; if no loan with the payload id existed, a new one is appended
and attributed to the requesting userId; if one existed, it is updated
in place with **every** field overwritten from the payload (missing
fields becoming their defaults, not keeping the prior value) while id
and owner are kept; the response is the serialized updated loan with
its (unchanged) payment list. -/
theorem loan_upsert_overwrite (uid : Option String) (p : LoanPayload) (db : DB)
    (r : Resp) (db' : DB) (h : save_loan uid p db = some (r, db')) :
    db'.payments = db.payments ∧ db'.transactions = db.transactions ∧
    (∀ pl, save_loan uid { p with payments := pl } db = some (r, db')) ∧
    ∃ sd d, p.startDate = some sd ∧ strptimeYMD (takeBeforeT sd) = some d ∧
      ((db.loans.find? (fun l => l.id == p.id) = none →
        ∃ u, db'.loans = db.loans ++ [u] ∧ u.id = p.id ∧ u.user_id = uid ∧
          loanFieldsFromPayload u p d ∧
          r = (200, u.to_dict (loanPayments db' u))) ∧
       (∀ l0, db.loans.find? (fun l => l.id == p.id) = some l0 →
        ∃ pre post u, db.loans = pre ++ l0 :: post ∧ (∀ x ∈ pre, x.id ≠ p.id) ∧
          db'.loans = pre ++ u :: post ∧ u.id = l0.id ∧ u.user_id = l0.user_id ∧
          loanFieldsFromPayload u p d ∧
          r = (200, u.to_dict (loanPayments db' u)))) := by
  have h0 := fun pl => (save_loan_payments_key_irrelevant uid p pl db).trans h
  cases hsd : p.startDate with
  | none => simp [save_loan, hsd] at h
  | some sd =>
    cases hps : strptimeYMD (takeBeforeT sd) with
    | none => simp [save_loan, hsd, hps] at h
    | some d =>
      simp only [hsd] at h0
      cases hfind : db.loans.find? (fun l => l.id == p.id) with
      | none =>
        simp only [save_loan, hsd, hps, hfind, Option.some.injEq, Prod.mk.injEq] at h
        obtain ⟨hr, hdb⟩ := h
        subst hdb
        refine ⟨rfl, rfl, h0, sd, d, rfl, hps, ?_, ?_⟩
        · intro _
          exact ⟨applyLoanPayload (newLoan p.id uid) p d, rfl, rfl, rfl,
            ⟨rfl, rfl, rfl, rfl, rfl, rfl, rfl, rfl, rfl, rfl, rfl, rfl⟩, hr.symm⟩
        · intro l0 hl0
          exact absurd hl0 (by simp)
      | some l0 =>
        simp only [save_loan, hsd, hps, hfind, Option.some.injEq, Prod.mk.injEq] at h
        obtain ⟨hr, hdb⟩ := h
        subst hdb
        refine ⟨rfl, rfl, h0, sd, d, rfl, hps, ?_, ?_⟩
        · intro hnone
          exact absurd hnone (by simp)
        · intro l1 hl1
          obtain rfl : l0 = l1 := Option.some.inj hl1
          obtain ⟨pre, post, hdec, hpre, hpa⟩ := find?_decomp hfind
          refine ⟨pre, post, applyLoanPayload l0 p d, hdec,
            (by intro x hx; have := hpre x hx; simpa using this), ?_, rfl, rfl,
            ⟨rfl, rfl, rfl, rfl, rfl, rfl, rfl, rfl, rfl, rfl, rfl, rfl⟩, hr.symm⟩
          show updateFirst (fun l => l.id == p.id) _ db.loans = _
          rw [hdec, updateFirst_eq _ _ _ _ _ hpre hpa]

/-- The loan payload the C1 witness posts over the existing "L1": some
keys present, several keys absent, a `payments` list included. -/
def lpUpd : LoanPayload :=
  { id := "L1", name := some "renamed", lender := none, principal := some 4000,
    interestRate := some 6, startDate := some "2024-07-01T12:00:00",
    emiAmount := none, tenureMonths := some 12, initialPaidMonths := none,
    dueDateDay := some 10, type := some "auto", status := some "closed",
    isForeclosed := some true, payments := some [] }

/-- The stored loan after the C1 witness call. -/
def loanUpd : Loan :=
  { id := "L1", user_id := some "alice", name := some "renamed",
    lender := none, principal := some 4000, interest_rate := some 6,
    start_date := some ⟨2024, 7, 1⟩, emi_amount := none,
    tenure_months := some 12, initial_paid_months := some 0,
    due_date_day := some 10, type := some "auto", status := some "closed",
    is_foreclosed := some true }

/-- The store after the C1 witness call. -/
def dbLoanUpd : DB := { dbSample with loans := [loanUpd] }

/-- C1 witness: the upsert contract at a concrete update call. -/
theorem loan_upsert_overwrite_witness :
    save_loan (some "carol") lpUpd dbSample =
      some ((200, loanUpd.to_dict [payA1, payA2]), dbLoanUpd) ∧
    (dbLoanUpd.payments = dbSample.payments ∧
     dbLoanUpd.transactions = dbSample.transactions ∧
     (∀ pl, save_loan (some "carol") { lpUpd with payments := pl } dbSample =
        some ((200, loanUpd.to_dict [payA1, payA2]), dbLoanUpd)) ∧
     ∃ sd d, lpUpd.startDate = some sd ∧ strptimeYMD (takeBeforeT sd) = some d ∧
       ((dbSample.loans.find? (fun l => l.id == lpUpd.id) = none →
         ∃ u, dbLoanUpd.loans = dbSample.loans ++ [u] ∧ u.id = lpUpd.id ∧
           u.user_id = some "carol" ∧ loanFieldsFromPayload u lpUpd d ∧
           ((200, loanUpd.to_dict [payA1, payA2]) : Resp) =
             (200, u.to_dict (loanPayments dbLoanUpd u))) ∧
        (∀ l0, dbSample.loans.find? (fun l => l.id == lpUpd.id) = some l0 →
         ∃ pre post u, dbSample.loans = pre ++ l0 :: post ∧
           (∀ x ∈ pre, x.id ≠ lpUpd.id) ∧
           dbLoanUpd.loans = pre ++ u :: post ∧ u.id = l0.id ∧
           u.user_id = l0.user_id ∧ loanFieldsFromPayload u lpUpd d ∧
           ((200, loanUpd.to_dict [payA1, payA2]) : Resp) =
             (200, u.to_dict (loanPayments dbLoanUpd u))))) :=
  ⟨by rfl,
   loan_upsert_overwrite (some "carol") lpUpd dbSample
     (200, loanUpd.to_dict [payA1, payA2]) dbLoanUpd (by rfl)⟩

/-! ### C3 -/

/-- C3: deleting an existing Loan also deletes all of its Payments
(however many): afterwards no stored payment, and hence no payment
embedded in any loan of any user's sync response, references the
deleted loan id; the loan itself is gone, other payments and the
transactions are kept. -/
theorem loan_delete_cascade (loanId : String) (db : DB) (r : Resp) (db' : DB)
    (hwf : db.wf) (h : delete_loan loanId db = (r, db'))
    (hex : ∃ l ∈ db.loans, l.id = loanId) :
    r = (200, .obj [("message", .str "Deleted successfully")]) ∧
    db'.payments = db.payments.filter (fun pm => !(pm.loan_id == some loanId)) ∧
    (∀ pm ∈ db'.payments, pm.loan_id ≠ some loanId) ∧
    (∀ l ∈ db'.loans, l.id ≠ loanId) ∧
    (∀ l pm, pm ∈ loanPayments db' l → pm.loan_id ≠ some loanId) ∧
    db'.transactions = db.transactions := by
  obtain ⟨l, hl, hid⟩ := hex
  cases hf : db.loans.find? (fun l => l.id == loanId) with
  | none =>
    exact absurd (by simpa using List.find?_eq_none.mp hf l hl) (by simp [hid])
  | some l0 =>
    simp only [delete_loan, hf, Prod.mk.injEq] at h
    obtain ⟨hr, hdb⟩ := h
    subst hdb
    have hpay : ∀ pm ∈ db.payments.filter (fun pm => !(pm.loan_id == some loanId)),
        pm.loan_id ≠ some loanId := by
      intro pm hpm
      have := List.of_mem_filter hpm
      simpa using this
    refine ⟨hr.symm, rfl, hpay, ?_, ?_, rfl⟩
    · intro l' hl' he
      obtain ⟨pre, post, hdec, hpre, hpa⟩ := find?_decomp hf
      have herase : db.loans.eraseP (fun l => l.id == loanId) = pre ++ post := by
        rw [hdec]; exact eraseP_decomp _ _ _ _ hpre hpa
      rw [herase] at hl'
      rcases List.mem_append.mp hl' with hmem | hmem
      · have := hpre l' hmem; simp [he] at this
      · have hne := nodup_middle_ne (f := Loan.id) (hdec ▸ hwf.1) l' hmem
        have hl0 : l0.id = loanId := by simpa using hpa
        exact hne (by rw [he, hl0])
    · intro l' pm hpm
      exact hpay pm (List.mem_of_mem_filter hpm)

/-- C3 witness: deleting "L1" from the sample store (which has two
payments on it) removes the loan and both payments. -/
theorem loan_delete_cascade_witness :
    dbSample.wf ∧
    delete_loan "L1" dbSample =
      ((200, .obj [("message", .str "Deleted successfully")]),
       { dbSample with loans := [], payments := [] }) ∧
    (∃ l ∈ dbSample.loans, l.id = "L1") ∧
    (((200, JVal.obj [("message", JVal.str "Deleted successfully")]) : Resp) =
      (200, .obj [("message", .str "Deleted successfully")]) ∧
     ({ dbSample with loans := [], payments := [] } : DB).payments =
       dbSample.payments.filter (fun pm => !(pm.loan_id == some "L1")) ∧
     (∀ pm ∈ ({ dbSample with loans := [], payments := [] } : DB).payments,
        pm.loan_id ≠ some "L1") ∧
     (∀ l ∈ ({ dbSample with loans := [], payments := [] } : DB).loans,
        l.id ≠ "L1") ∧
     (∀ l pm, pm ∈ loanPayments { dbSample with loans := [], payments := [] } l →
        pm.loan_id ≠ some "L1") ∧
     ({ dbSample with loans := [], payments := [] } : DB).transactions =
       dbSample.transactions) :=
  ⟨by decide, by rfl, ⟨loanA, by simp [dbSample], rfl⟩,
   loan_delete_cascade "L1" dbSample
     (200, .obj [("message", .str "Deleted successfully")])
     { dbSample with loans := [], payments := [] }
     (by decide) (by rfl) ⟨loanA, by simp [dbSample], rfl⟩⟩

/-! ### C7 -/

/-- C7: sync is isolated by user: the loans (and transactions)
serialized for userId B are exactly those whose stored owner is B, so a
Loan or Transaction owned by a different user A is never among them. -/
theorem sync_user_isolation (A B : String) (db : DB) (hAB : A ≠ B) (hB : B ≠ "") :
    get_user_data (some B) db =
      ((200, .obj
        [("loans", .arr ((db.loans.filter (fun l => l.user_id == some B)).map
            (fun l => l.to_dict (loanPayments db l)))),
         ("transactions", .arr ((db.transactions.filter
            (fun t => t.user_id == some B)).map Transaction.to_dict))]), db) ∧
    (∀ l ∈ db.loans, l.user_id = some A →
      l ∉ db.loans.filter (fun l => l.user_id == some B)) ∧
    (∀ t ∈ db.transactions, t.user_id = some A →
      t ∉ db.transactions.filter (fun t => t.user_id == some B)) := by
  have hBne : (B == "") = false := by simp [hB]
  refine ⟨by simp [get_user_data, hBne], ?_, ?_⟩
  · intro l _ hA hmem
    have := List.of_mem_filter hmem
    rw [hA] at this
    simp at this
    exact hAB this
  · intro t _ hA hmem
    have := List.of_mem_filter hmem
    rw [hA] at this
    simp at this
    exact hAB this

/-- C7 witness: isolation between "alice" and "bob" on the sample
store. -/
theorem sync_user_isolation_witness :
    get_user_data (some "bob") dbSample =
      ((200, .obj
        [("loans", .arr ((dbSample.loans.filter
            (fun l => l.user_id == some "bob")).map
            (fun l => l.to_dict (loanPayments dbSample l)))),
         ("transactions", .arr ((dbSample.transactions.filter
            (fun t => t.user_id == some "bob")).map Transaction.to_dict))]),
       dbSample) ∧
    (∀ l ∈ dbSample.loans, l.user_id = some "alice" →
      l ∉ dbSample.loans.filter (fun l => l.user_id == some "bob")) ∧
    (∀ t ∈ dbSample.transactions, t.user_id = some "alice" →
      t ∉ dbSample.transactions.filter (fun t => t.user_id == some "bob")) :=
  sync_user_isolation "alice" "bob" dbSample (by decide) (by decide)

/-! ### C4 -/

theorem applyLoanPayload_idem (l : Loan) (p : LoanPayload) (d : Date) :
    applyLoanPayload (applyLoanPayload l p d) p d = applyLoanPayload l p d := rfl

/-- C4: loan upsert is idempotent by id: after a successful post, the
store holds exactly one Loan with the payload id, and posting the same
payload again returns the identical response and leaves the store
identical (so in particular the second response equals the first). -/
theorem loan_upsert_idempotent (uid : Option String) (p : LoanPayload) (db : DB)
    (r1 : Resp) (db1 : DB) (hwf : db.wf) (h1 : save_loan uid p db = some (r1, db1)) :
    save_loan uid p db1 = some (r1, db1) ∧
    (db1.loans.filter (fun l => l.id == p.id)).length = 1 := by
  cases hsd : p.startDate with
  | none => simp [save_loan, hsd] at h1
  | some sd =>
    cases hps : strptimeYMD (takeBeforeT sd) with
    | none => simp [save_loan, hsd, hps] at h1
    | some d =>
      cases hfind : db.loans.find? (fun l => l.id == p.id) with
      | none =>
        have hnone : ∀ x ∈ db.loans, (fun l => l.id == p.id) x = false :=
          fun x hx => by simpa using List.find?_eq_none.mp hfind x hx
        simp only [save_loan, hsd, hps, hfind, Option.some.injEq, Prod.mk.injEq] at h1
        obtain ⟨hr, hdb⟩ := h1
        subst hdb
        subst hr
        have hfind2 : ((db.loans ++ [applyLoanPayload (newLoan p.id uid) p d]).find?
            (fun l => l.id == p.id)) = some (applyLoanPayload (newLoan p.id uid) p d) := by
          rw [find?_append_none _ hfind]
          exact List.find?_cons_of_pos _ (by simp [applyLoanPayload, newLoan])
        have hupd : updateFirst (fun l => l.id == p.id)
            (fun _ => applyLoanPayload (newLoan p.id uid) p d)
            (db.loans ++ [applyLoanPayload (newLoan p.id uid) p d]) =
            db.loans ++ [applyLoanPayload (newLoan p.id uid) p d] := by
          rw [updateFirst_no_match _ _ _ _ hnone]
          simp [updateFirst, applyLoanPayload, newLoan]
        constructor
        · simp only [save_loan, hsd, hps, hfind2, applyLoanPayload_idem, hupd]
        · rw [List.filter_append,
            List.filter_eq_nil_iff.mpr (by intro x hx; simp [hnone x hx]),
            List.nil_append,
            List.filter_cons_of_pos (by simp [applyLoanPayload, newLoan])]
          simp
      | some l0 =>
        simp only [save_loan, hsd, hps, hfind, Option.some.injEq, Prod.mk.injEq] at h1
        obtain ⟨hr, hdb⟩ := h1
        subst hdb
        subst hr
        obtain ⟨pre, post, hdec, hpre, hpa⟩ := find?_decomp hfind
        have hu : ((applyLoanPayload l0 p d).id == p.id) = true := hpa
        have hupd1 : updateFirst (fun l => l.id == p.id)
            (fun _ => applyLoanPayload l0 p d) db.loans =
            pre ++ applyLoanPayload l0 p d :: post := by
          rw [hdec]; exact updateFirst_eq _ _ _ _ _ hpre hpa
        have hfind2 : ((updateFirst (fun l => l.id == p.id)
            (fun _ => applyLoanPayload l0 p d) db.loans).find?
            (fun l => l.id == p.id)) = some (applyLoanPayload l0 p d) := by
          rw [hupd1]; exact find?_prepend_no_match hpre hu
        have hupd2 : updateFirst (fun l => l.id == p.id)
            (fun _ => applyLoanPayload l0 p d)
            (updateFirst (fun l => l.id == p.id)
              (fun _ => applyLoanPayload l0 p d) db.loans) =
            updateFirst (fun l => l.id == p.id)
              (fun _ => applyLoanPayload l0 p d) db.loans := by
          rw [hupd1]
          exact updateFirst_eq _ _ _ _ _ hpre hu
        have hpost : ∀ x ∈ post, (x.id == p.id) = false := by
          intro x hx
          have hne := nodup_middle_ne (f := Loan.id) (hdec ▸ hwf.1) x hx
          have hl0 : l0.id = p.id := by simpa using hpa
          simp [hl0 ▸ hne]
        constructor
        · simp only [save_loan, hsd, hps, hfind2, applyLoanPayload_idem, hupd2]
        · show ((updateFirst (fun l => l.id == p.id)
              (fun _ => applyLoanPayload l0 p d) db.loans).filter
              (fun l => l.id == p.id)).length = 1
          rw [hupd1, filter_singleton_of_unique hpre hpost hu]
          rfl

/-- An empty store. -/
def dbEmpty : DB := ⟨[], [], []⟩

/-- The loan payload the C4 witness posts twice. -/
def lpNew : LoanPayload :=
  { id := "L9", name := some "bike", lender := none, principal := some 800,
    interestRate := none, startDate := some "2024-02-29", emiAmount := some 80,
    tenureMonths := some 10, initialPaidMonths := some 1, dueDateDay := none,
    type := some "vehicle", status := none, isForeclosed := none,
    payments := none }

/-- The loan stored by the C4 witness's first post. -/
def loanNew : Loan :=
  { id := "L9", user_id := some "dave", name := some "bike", lender := none,
    principal := some 800, interest_rate := none,
    start_date := some ⟨2024, 2, 29⟩, emi_amount := some 80,
    tenure_months := some 10, initial_paid_months := some 1,
    due_date_day := none, type := some "vehicle", status := some "active",
    is_foreclosed := some false }

/-- The store after the C4 witness's first post. -/
def dbNew : DB := { dbEmpty with loans := [loanNew] }

/-- C4 witness: posting `lpNew` once yields `dbNew`; posting it again
returns the identical response and store, which holds exactly one loan
with that id. -/
theorem loan_upsert_idempotent_witness :
    dbEmpty.wf ∧
    save_loan (some "dave") lpNew dbEmpty =
      some ((200, loanNew.to_dict []), dbNew) ∧
    (save_loan (some "dave") lpNew dbNew = some ((200, loanNew.to_dict []), dbNew) ∧
     (dbNew.loans.filter (fun l => l.id == lpNew.id)).length = 1) :=
  ⟨by decide, by rfl,
   loan_upsert_idempotent (some "dave") lpNew dbEmpty
     (200, loanNew.to_dict []) dbNew (by decide) (by rfl)⟩

/-! ### C8: digit, padding and split lemmas -/

theorem digitChar_isDigit (n : Nat) : (digitChar n).isDigit = true := by
  unfold digitChar
  have h : n % 10 < 10 := Nat.mod_lt _ (by decide)
  revert h
  generalize n % 10 = r
  intro h
  interval_cases r <;> decide

theorem digitVal_digitChar (n : Nat) : digitVal (digitChar n) = n % 10 := by
  unfold digitChar digitVal
  have h : n % 10 < 10 := Nat.mod_lt _ (by decide)
  revert h
  generalize n % 10 = r
  intro h
  interval_cases r <;> decide

theorem isDigit_toNat_bounds {c : Char} (h : c.isDigit = true) :
    48 ≤ c.toNat ∧ c.toNat ≤ 57 := by
  simp [Char.isDigit] at h
  exact h

theorem isDigit_beq_dash {c : Char} (h : c.isDigit = true) : (c == '-') = false := by
  cases hb : c == '-' with
  | false => rfl
  | true =>
    have : c = '-' := by simpa using hb
    subst this
    simp at h

theorem pad4_mem_isDigit (n : Nat) : ∀ c ∈ pad4 n, c.isDigit = true := by
  intro c hc
  simp only [pad4, List.mem_cons, List.not_mem_nil, or_false] at hc
  rcases hc with rfl | rfl | rfl | rfl <;> exact digitChar_isDigit _

theorem pad2_mem_isDigit (n : Nat) : ∀ c ∈ pad2 n, c.isDigit = true := by
  intro c hc
  simp only [pad2, List.mem_cons, List.not_mem_nil, or_false] at hc
  rcases hc with rfl | rfl <;> exact digitChar_isDigit _

theorem digitsToNat_pad4 (y : Nat) (h : y < 10000) : digitsToNat (pad4 y) = y := by
  simp only [digitsToNat, pad4, List.foldl_cons, List.foldl_nil, digitVal_digitChar]
  omega

theorem digitsToNat_pad2 (m : Nat) (h : m < 100) : digitsToNat (pad2 m) = m := by
  simp only [digitsToNat, pad2, List.foldl_cons, List.foldl_nil, digitVal_digitChar]
  omega

theorem splitOnChar_no_sep {sep : Char} {cs : List Char}
    (h : ∀ c ∈ cs, (c == sep) = false) : splitOnChar sep cs = [cs] := by
  induction cs with
  | nil => rfl
  | cons c cs ih =>
    have hc := h c (by simp)
    rw [splitOnChar, if_neg (by simp [hc]), ih (fun x hx => h x (by simp [hx]))]

theorem splitOnChar_append {sep : Char} {a rest : List Char}
    (ha : ∀ c ∈ a, (c == sep) = false) :
    splitOnChar sep (a ++ sep :: rest) = a :: splitOnChar sep rest := by
  induction a with
  | nil =>
    show splitOnChar sep (sep :: rest) = [] :: splitOnChar sep rest
    rw [splitOnChar, if_pos (by simp)]
  | cons c cs ih =>
    have hc := ha c (by simp)
    rw [List.cons_append, splitOnChar, if_neg (by simp [hc]),
      ih (fun x hx => ha x (by simp [hx]))]

theorem foldl_digits_lt (cs : List Char) (a : Nat)
    (h : ∀ c ∈ cs, c.isDigit = true) :
    cs.foldl (fun a c => 10 * a + digitVal c) a < (a + 1) * 10 ^ cs.length := by
  induction cs generalizing a with
  | nil => simp
  | cons c cs ih =>
    have hc : digitVal c ≤ 9 := by
      have := isDigit_toNat_bounds (h c (by simp))
      unfold digitVal
      omega
    have hstep := ih (10 * a + digitVal c) (fun x hx => h x (by simp [hx]))
    calc (c :: cs).foldl (fun a c => 10 * a + digitVal c) a
        = cs.foldl (fun a c => 10 * a + digitVal c) (10 * a + digitVal c) := by
          rw [List.foldl_cons]
      _ < (10 * a + digitVal c + 1) * 10 ^ cs.length := hstep
      _ ≤ ((a + 1) * 10) * 10 ^ cs.length := by
          apply Nat.mul_le_mul_right
          omega
      _ = (a + 1) * 10 ^ (c :: cs).length := by
          rw [List.length_cons, pow_succ]
          ring

theorem digitsToNat_lt (cs : List Char) (h : ∀ c ∈ cs, c.isDigit = true) :
    digitsToNat cs < 10 ^ cs.length := by
  have := foldl_digits_lt cs 0 h
  simpa [digitsToNat] using this

theorem parseNatField_spec {lo hi : Nat} {cs : List Char} {n : Nat}
    (h : parseNatField lo hi cs = some n) :
    lo ≤ cs.length ∧ cs.length ≤ hi ∧ 0 < cs.length ∧
      (∀ c ∈ cs, c.isDigit = true) ∧ n = digitsToNat cs ∧ n < 10 ^ cs.length := by
  unfold parseNatField at h
  split at h
  case isTrue hc =>
    obtain ⟨h1, h2, h3, h4⟩ := hc
    have hall : ∀ c ∈ cs, c.isDigit = true := by
      intro c hcm
      exact List.all_eq_true.mp h4 c hcm
    cases h
    exact ⟨h1, h2, h3, hall, rfl, digitsToNat_lt cs hall⟩
  case isFalse => cases h

theorem daysInMonth_le (y m : Nat) : daysInMonth y m ≤ 31 := by
  unfold daysInMonth
  split_ifs <;> omega

theorem strptimeYMD_some_bounds {s : String} {d : Date}
    (h : strptimeYMD s = some d) :
    1 ≤ d.year ∧ d.year ≤ 9999 ∧ 1 ≤ d.month ∧ d.month ≤ 12 ∧
      1 ≤ d.day ∧ d.day ≤ daysInMonth d.year d.month := by
  unfold strptimeYMD at h
  split at h
  case h_2 => exact absurd h (by simp)
  case h_1 ys ms ds hsp =>
    split at h
    case h_2 => exact absurd h (by simp)
    case h_1 y m dd hy hm hd =>
      split at h
      case isFalse => exact absurd h (by simp)
      case isTrue hcond =>
        have hds := Option.some.inj h
        subst hds
        obtain ⟨hy1, hy2, hy3, hy4, hy5, hy6⟩ := parseNatField_spec hy
        have hylen : ys.length = 4 := le_antisymm hy2 hy1
        have hy9999 : y < 10000 := by
          rw [hylen] at hy6
          simpa using hy6
        refine ⟨hcond.1, ?_, hcond.2.1, hcond.2.2.1, hcond.2.2.2.1,
          hcond.2.2.2.2⟩
        show y ≤ 9999
        omega

theorem dateIso_reparse {d : Date} (h1 : 1 ≤ d.year) (h4 : d.year ≤ 9999)
    (h2 : 1 ≤ d.month) (h5 : d.month ≤ 12) (h3 : 1 ≤ d.day)
    (h6 : d.day ≤ daysInMonth d.year d.month) :
    strptimeYMD (dateIso d) = some d := by
  obtain ⟨y, m, dd⟩ := d
  simp only at h1 h2 h3 h4 h5 h6
  have hsp : splitOnChar '-' (dateIso ⟨y, m, dd⟩).data =
      [pad4 y, pad2 m, pad2 dd] := by
    show splitOnChar '-' (pad4 y ++ '-' :: (pad2 m ++ '-' :: pad2 dd)) = _
    rw [splitOnChar_append (fun c hc => isDigit_beq_dash (pad4_mem_isDigit y c hc)),
      splitOnChar_append (fun c hc => isDigit_beq_dash (pad2_mem_isDigit m c hc)),
      splitOnChar_no_sep (fun c hc => isDigit_beq_dash (pad2_mem_isDigit dd c hc))]
  have hy : parseNatField 4 4 (pad4 y) = some y := by
    unfold parseNatField
    rw [if_pos ⟨by simp [pad4], by simp [pad4], by simp [pad4],
      List.all_eq_true.mpr (fun c hc => pad4_mem_isDigit y c hc)⟩]
    rw [digitsToNat_pad4 y (by omega)]
  have hm : parseNatField 1 2 (pad2 m) = some m := by
    unfold parseNatField
    rw [if_pos ⟨by simp [pad2], by simp [pad2], by simp [pad2],
      List.all_eq_true.mpr (fun c hc => pad2_mem_isDigit m c hc)⟩]
    rw [digitsToNat_pad2 m (by omega)]
  have hd : parseNatField 1 2 (pad2 dd) = some dd := by
    have h31 := daysInMonth_le y m
    unfold parseNatField
    rw [if_pos ⟨by simp [pad2], by simp [pad2], by simp [pad2],
      List.all_eq_true.mpr (fun c hc => pad2_mem_isDigit dd c hc)⟩]
    rw [digitsToNat_pad2 dd (by omega)]
  unfold strptimeYMD
  rw [hsp]
  simp only [hy, hm, hd]
  rw [if_pos ⟨h1, h2, h5, h3, h6⟩]

theorem sync_contains_loan {db2 : DB} {u : Loan} {v : String}
    (hu : u ∈ db2.loans) (huv : u.user_id = some v) (hv : v ≠ "") :
    ∃ txsJ, get_user_data (some v) db2 =
      ((200, .obj
        [("loans", .arr ((db2.loans.filter (fun l => l.user_id == some v)).map
            (fun l => l.to_dict (loanPayments db2 l)))),
         ("transactions", .arr txsJ)]), db2) ∧
      u.to_dict (loanPayments db2 u) ∈
        (db2.loans.filter (fun l => l.user_id == some v)).map
          (fun l => l.to_dict (loanPayments db2 l)) := by
  have hvne : (v == "") = false := by simp [hv]
  refine ⟨(db2.transactions.filter (fun t => t.user_id == some v)).map
    Transaction.to_dict, by simp [get_user_data, hvne], ?_⟩
  exact List.mem_map_of_mem _ (List.mem_filter.mpr ⟨hu, by simp [huv]⟩)

/-! ### C8 -/

/-- C8: dates round-trip with the time discarded.  First part: a loan
posted with startDate "2024-03-15T00:00:00Z" is stored with date
2024-03-15; its serialization (the upsert response, and the entry of
any subsequent sync for the owner) carries startDate exactly
"2024-03-15".  Second part: any incoming string whose date part parses
is stored as that date, and every stored date serializes as
zero-padded `YYYY-MM-DD` (4-2-2 digit groups separated by dashes),
which reparses to the same date. -/
theorem startDate_round_trip :
    (∀ (uid : Option String) (p : LoanPayload) (db : DB),
      p.startDate = some "2024-03-15T00:00:00Z" →
      ∃ u db2, save_loan uid p db =
          some ((200, u.to_dict (loanPayments db2 u)), db2) ∧
        u ∈ db2.loans ∧ u.id = p.id ∧ u.start_date = some ⟨2024, 3, 15⟩ ∧
        jDate u.start_date = .str "2024-03-15" ∧
        (∀ v, u.user_id = some v → v ≠ "" →
          ∃ txsJ, get_user_data (some v) db2 =
            ((200, .obj
              [("loans", .arr ((db2.loans.filter
                  (fun l => l.user_id == some v)).map
                  (fun l => l.to_dict (loanPayments db2 l)))),
               ("transactions", .arr txsJ)]), db2) ∧
            u.to_dict (loanPayments db2 u) ∈
              (db2.loans.filter (fun l => l.user_id == some v)).map
                (fun l => l.to_dict (loanPayments db2 l)))) ∧
    (∀ (s : String) (d : Date), strptimeYMD (takeBeforeT s) = some d →
      (dateIso d).data = pad4 d.year ++ '-' :: (pad2 d.month ++ '-' :: pad2 d.day) ∧
      (pad4 d.year).length = 4 ∧ (pad2 d.month).length = 2 ∧
      (pad2 d.day).length = 2 ∧
      (∀ c ∈ pad4 d.year ++ pad2 d.month ++ pad2 d.day, c.isDigit = true) ∧
      strptimeYMD (dateIso d) = some d) := by
  constructor
  · intro uid p db hsd
    have hps : strptimeYMD (takeBeforeT "2024-03-15T00:00:00Z") =
        some ⟨2024, 3, 15⟩ := by rfl
    cases hfind : db.loans.find? (fun l => l.id == p.id) with
    | none =>
      refine ⟨applyLoanPayload (newLoan p.id uid) p ⟨2024, 3, 15⟩,
        { db with loans := db.loans ++
          [applyLoanPayload (newLoan p.id uid) p ⟨2024, 3, 15⟩] },
        ?_, by simp, rfl, rfl, rfl, ?_⟩
      · simp only [save_loan, hsd, hps, hfind]
      · intro v huv hv
        exact sync_contains_loan (by simp) huv hv
    | some l0 =>
      obtain ⟨pre, post, hdec, hpre, hpa⟩ := find?_decomp hfind
      have hupd : updateFirst (fun l => l.id == p.id)
          (fun _ => applyLoanPayload l0 p ⟨2024, 3, 15⟩) db.loans =
          pre ++ applyLoanPayload l0 p ⟨2024, 3, 15⟩ :: post := by
        rw [hdec]; exact updateFirst_eq _ _ _ _ _ hpre hpa
      have hmem : applyLoanPayload l0 p ⟨2024, 3, 15⟩ ∈
          updateFirst (fun l => l.id == p.id)
            (fun _ => applyLoanPayload l0 p ⟨2024, 3, 15⟩) db.loans := by
        rw [hupd]
        exact List.mem_append_right _ (List.mem_cons_self _ _)
      refine ⟨applyLoanPayload l0 p ⟨2024, 3, 15⟩,
        ⟨updateFirst (fun l => l.id == p.id)
          (fun _ => applyLoanPayload l0 p ⟨2024, 3, 15⟩) db.loans,
         db.payments, db.transactions⟩,
        ?_, hmem, by simpa using hpa, rfl, rfl, ?_⟩
      · simp only [save_loan, hsd, hps, hfind]
      · intro v huv hv
        exact sync_contains_loan hmem huv hv
  · intro s d h
    obtain ⟨h1, h4, h2, h5, h3, h6⟩ := strptimeYMD_some_bounds h
    refine ⟨rfl, rfl, rfl, rfl, ?_, dateIso_reparse h1 h4 h2 h5 h3 h6⟩
    intro c hc
    rcases List.mem_append.mp hc with hc2 | hc3
    · rcases List.mem_append.mp hc2 with hc4 | hc5
      · exact pad4_mem_isDigit _ c hc4
      · exact pad2_mem_isDigit _ c hc5
    · exact pad2_mem_isDigit _ c hc3

/-- The loan payload the C8 witness posts. -/
def lpRT : LoanPayload :=
  { id := "L8", name := some "rt", lender := none, principal := some 10,
    interestRate := none, startDate := some "2024-03-15T00:00:00Z",
    emiAmount := none, tenureMonths := none, initialPaidMonths := none,
    dueDateDay := none, type := none, status := none, isForeclosed := none,
    payments := none }

/-- C8 witness: both parts of the round-trip at the concrete
"2024-03-15T00:00:00Z" input. -/
theorem startDate_round_trip_witness :
    (lpRT.startDate = some "2024-03-15T00:00:00Z" ∧
     ∃ u db2, save_loan (some "erin") lpRT dbEmpty =
         some ((200, u.to_dict (loanPayments db2 u)), db2) ∧
       u ∈ db2.loans ∧ u.id = lpRT.id ∧ u.start_date = some ⟨2024, 3, 15⟩ ∧
       jDate u.start_date = .str "2024-03-15" ∧
       (∀ v, u.user_id = some v → v ≠ "" →
         ∃ txsJ, get_user_data (some v) db2 =
           ((200, .obj
             [("loans", .arr ((db2.loans.filter
                 (fun l => l.user_id == some v)).map
                 (fun l => l.to_dict (loanPayments db2 l)))),
              ("transactions", .arr txsJ)]), db2) ∧
           u.to_dict (loanPayments db2 u) ∈
             (db2.loans.filter (fun l => l.user_id == some v)).map
               (fun l => l.to_dict (loanPayments db2 l)))) ∧
    (strptimeYMD (takeBeforeT "2024-03-15T00:00:00Z") = some ⟨2024, 3, 15⟩ ∧
     ((dateIso ⟨2024, 3, 15⟩).data =
        pad4 2024 ++ '-' :: (pad2 3 ++ '-' :: pad2 15) ∧
      (pad4 2024).length = 4 ∧ (pad2 3).length = 2 ∧ (pad2 15).length = 2 ∧
      (∀ c ∈ pad4 2024 ++ pad2 3 ++ pad2 15, c.isDigit = true) ∧
      strptimeYMD (dateIso ⟨2024, 3, 15⟩) = some ⟨2024, 3, 15⟩)) :=
  ⟨⟨rfl, startDate_round_trip.1 (some "erin") lpRT dbEmpty rfl⟩,
   ⟨rfl, startDate_round_trip.2 "2024-03-15T00:00:00Z" ⟨2024, 3, 15⟩ rfl⟩⟩
